import Mathlib

/-!
Verification of the OptiMol property-scoring and normalization pipeline
(`optim/theano_bo/generate_init.py`) and of the utilities in `utils.py`,
as a shallow embedding.  Molecules and the external scoring functions
(RDKit, `comp_metrics`, the SA scorer, the QSAR classifier and the
generative model's `embed`) are opaque parameters; numeric score vectors
are lists of real numbers (idealising IEEE floats); the script's
`np.savetxt` calls are recorded as a list of named file outputs and a
raised exception is an `Except.error` value.
-/

namespace OptiMol

/-! ## Score normalizer (`np.mean` / `np.std` based z-scoring) -/

/-- `np.mean xs`: the arithmetic mean over the full batch. -/
noncomputable def mean (xs : List ℝ) : ℝ := xs.sum / xs.length

/-- Population variance of a batch: the quantity under the square root in
`np.std` (numpy's default `ddof = 0`). -/
noncomputable def variance (xs : List ℝ) : ℝ :=
  ((xs.map (fun x => (x - mean xs) ^ 2)).sum) / xs.length

/-- `np.std xs`: the population standard deviation. -/
noncomputable def std (xs : List ℝ) : ℝ := Real.sqrt (variance xs)

/-- The z-score normalization applied to every score vector in the script,
e.g. `(np.array(SA_scores) - np.mean(SA_scores)) / np.std(SA_scores)`. -/
noncomputable def normalize (xs : List ℝ) : List ℝ :=
  xs.map (fun x => (x - mean xs) / std xs)

/-! ## Dataset loading (`args.cutoff` handling) -/

/-- The cutoff logic of the script:
`if args.cutoff > 0: pd.read_csv(path, nrows=args.cutoff) else: pd.read_csv(path)`.
`rows` stands for the full external dataset; `pd.read_csv` with `nrows = n`
reads at most the first `n` rows, i.e. `List.take`. -/
def loadDataset (cutoff : Int) (rows : List α) : List α :=
  if 0 < cutoff then rows.take cutoff.toNat else rows

/-! ## `utils.Dumper` -/

/-- The `Dumper` object of `utils.py`: an optional default dumping path and the
parameter dictionary `self.dic` (its contents are opaque here, type `D`). -/
structure Dumper (D : Type) where
  dumping_path : Option String
  dic : D

/-- `Dumper.dump(dict_to_dump, dumping_path)`: resolve the dumping path
(the argument if given, else `self.dumping_path`), raise
`ValueError('Where should I dump ? No dump_path provided')` when the resolved
path is `None`, resolve the dictionary (`dict_to_dump`, or `self.dic` when it
is `None`) and write it.  The file write is modelled by returning the
path/contents pair. -/
def Dumper.dump (self : Dumper D) (dict_to_dump : Option D)
    (dumping_path : Option String) : Except String (String × D) :=
  let dp : Option String :=
    match dumping_path with
    | none => self.dumping_path
    | some p => some p
  match dp with
  | none => Except.error "Where should I dump ? No dump_path provided"
  | some p =>
      let d : D :=
        match dict_to_dump with
        | none => self.dic
        | some d => d
      Except.ok (p, d)

/-! ## Theorems for the dataset cutoff and the dumper -/

/-- C7: for a positive cutoff `N` the pipeline loads exactly the first `N`
rows (all rows when fewer than `N` exist, and never more); a non-positive
cutoff loads every row. -/
theorem loadDataset_spec (cutoff : Int) (rows : List α) :
    (0 < cutoff →
      loadDataset cutoff rows = rows.take cutoff.toNat ∧
      (loadDataset cutoff rows).length = min cutoff.toNat rows.length) ∧
    (cutoff ≤ 0 → loadDataset cutoff rows = rows) := by
  constructor
  · intro h
    refine ⟨by simp [loadDataset, h], ?_⟩
    simp [loadDataset, h, List.length_take]
  · intro h
    have h' : ¬ 0 < cutoff := not_lt.mpr h
    simp [loadDataset, h']

/-- Witness for `loadDataset_spec` at cutoff 2 on a three-row dataset. -/
theorem loadDataset_spec_witness :
    (0 : Int) < 2 ∧
    (loadDataset 2 [10, 20, 30] = ([10, 20, 30] : List Nat).take (2 : Int).toNat ∧
      (loadDataset 2 ([10, 20, 30] : List Nat)).length = min (2 : Int).toNat 3) :=
  ⟨by decide, (loadDataset_spec 2 [10, 20, 30]).1 (by decide)⟩

/-- C10: `Dumper.dump` raises `ValueError` exactly when both the
`dumping_path` argument and `self.dumping_path` are `None`; otherwise it
writes the resolved dictionary (`self.dic` when `dict_to_dump` is `None`) to
the resolved path, the argument taking precedence over the field. -/
theorem Dumper.dump_spec (self : Dumper D) (dict_to_dump : Option D)
    (dumping_path : Option String) :
    ((∃ e, self.dump dict_to_dump dumping_path = Except.error e) ↔
      dumping_path = none ∧ self.dumping_path = none) ∧
    (∀ p, dumping_path = some p →
      self.dump dict_to_dump dumping_path =
        Except.ok (p, dict_to_dump.getD self.dic)) ∧
    (∀ p, dumping_path = none → self.dumping_path = some p →
      self.dump dict_to_dump dumping_path =
        Except.ok (p, dict_to_dump.getD self.dic)) := by
  refine ⟨⟨?_, ?_⟩, ?_, ?_⟩
  · rintro ⟨e, he⟩
    cases hp : dumping_path with
    | some p => simp [Dumper.dump, hp] at he
    | none =>
      cases hq : self.dumping_path with
      | some q => simp [Dumper.dump, hp, hq] at he
      | none => exact ⟨rfl, rfl⟩
  · rintro ⟨hp, hq⟩
    refine ⟨"Where should I dump ? No dump_path provided", ?_⟩
    simp [Dumper.dump, hp, hq]
  · intro p hp
    cases dict_to_dump with
    | none => simp [Dumper.dump, hp]
    | some d => simp [Dumper.dump, hp]
  · intro p hp hq
    cases dict_to_dump with
    | none => simp [Dumper.dump, hp, hq]
    | some d => simp [Dumper.dump, hp, hq]

/-- Witness for `Dumper.dump_spec`: an explicitly passed path wins and the
instance dictionary is dumped when no dictionary argument is given. -/
theorem Dumper.dump_spec_witness :
    (some "out.json" = some "out.json") ∧
    Dumper.dump (⟨some "default.json", 7⟩ : Dumper Nat) none (some "out.json") =
      Except.ok ("out.json", (none : Option Nat).getD 7) :=
  ⟨rfl, (Dumper.dump_spec ⟨some "default.json", 7⟩ none (some "out.json")).2.1
    "out.json" rfl⟩

/-! ## `utils.QED_oracle` -/

/-- The body of the `QED_oracle` loop: `t` starts as `torch.zeros(len(smiles))`
and, for each `(i, s)` in `enumerate(smiles)`, entry `i` is overwritten with
`QED.qed(m)` whenever `Chem.MolFromSmiles(s)` succeeds (`parse s = some m`);
a failed parse leaves the zero entry in place. -/
def oracleLoop (parse : String → Option Mol) (qedf : Mol → ℝ) :
    List (Nat × String) → List ℝ → List ℝ
  | [], t => t
  | (i, s) :: rest, t =>
      oracleLoop parse qedf rest
        (match parse s with
         | some m => t.set i (qedf m)
         | none => t)

/-- `utils.QED_oracle(smiles)`, with `Chem.MolFromSmiles` abstracted as
`parse` and `QED.qed` as `qedf`.  The function is total: a malformed SMILES
yields `parse s = none` and never an exception. -/
def QED_oracle (parse : String → Option Mol) (qedf : Mol → ℝ)
    (smiles : List String) : List ℝ :=
  oracleLoop parse qedf smiles.enum (List.replicate smiles.length 0)

theorem oracleLoop_length (parse : String → Option Mol) (qedf : Mol → ℝ)
    (ps : List (Nat × String)) (t : List ℝ) :
    (oracleLoop parse qedf ps t).length = t.length := by
  induction ps generalizing t with
  | nil => rfl
  | cons p rest ih =>
    obtain ⟨i, s⟩ := p
    cases h : parse s with
    | none => simpa [oracleLoop, h] using ih t
    | some m => simpa [oracleLoop, h] using ih (t.set i (qedf m))

theorem oracleLoop_getElem_lt (parse : String → Option Mol) (qedf : Mol → ℝ)
    (l : List String) (k : Nat) (t : List ℝ) (j : Nat) (hj : j < k) :
    (oracleLoop parse qedf (l.enumFrom k) t)[j]? = t[j]? := by
  induction l generalizing k t with
  | nil => rfl
  | cons s rest ih =>
    have hrec := ih (k + 1) (match parse s with
      | some m => t.set k (qedf m)
      | none => t) (Nat.lt_succ_of_lt hj)
    cases h : parse s with
    | none =>
      simpa [List.enumFrom, oracleLoop, h] using hrec
    | some m =>
      have hne : k ≠ j := (Nat.ne_of_lt hj).symm
      simp only [List.enumFrom, oracleLoop, h] at hrec ⊢
      rw [hrec, List.getElem?_set_ne hne]

theorem oracleLoop_getElem (parse : String → Option Mol) (qedf : Mol → ℝ)
    (l : List String) (k : Nat) (t : List ℝ) (j : Nat) (hj : j < l.length)
    (ht : k + j < t.length) :
    (∀ m, parse (l.get ⟨j, hj⟩) = some m →
      (oracleLoop parse qedf (l.enumFrom k) t)[k + j]? = some (qedf m)) ∧
    (parse (l.get ⟨j, hj⟩) = none →
      (oracleLoop parse qedf (l.enumFrom k) t)[k + j]? = t[k + j]?) := by
  induction l generalizing k t j with
  | nil => exact absurd hj (Nat.not_lt_zero j)
  | cons s rest ih =>
    cases j with
    | zero =>
      constructor
      · intro m hm
        have hm' : parse s = some m := hm
        have hlt := oracleLoop_getElem_lt parse qedf rest (k + 1)
          (t.set k (qedf m)) k (Nat.lt_succ_self k)
        simp only [List.enumFrom, oracleLoop, hm', Nat.add_zero]
        rw [hlt]
        exact List.getElem?_set_self (by simpa using ht)
      · intro hn
        have hn' : parse s = none := hn
        have hlt := oracleLoop_getElem_lt parse qedf rest (k + 1) t k
          (Nat.lt_succ_self k)
        simp only [List.enumFrom, oracleLoop, hn', Nat.add_zero]
        exact hlt
    | succ j' =>
      have hj' : j' < rest.length := Nat.lt_of_succ_lt_succ hj
      have hidx : k + (j' + 1) = (k + 1) + j' := by omega
      constructor
      · intro m hm
        have hm' : parse (rest.get ⟨j', hj'⟩) = some m := hm
        cases h : parse s with
        | none =>
          simp only [List.enumFrom, oracleLoop, h, hidx]
          exact (ih (k + 1) t j' hj' (by omega)).1 m hm'
        | some mm =>
          simp only [List.enumFrom, oracleLoop, h, hidx]
          exact (ih (k + 1) (t.set k (qedf mm)) j' hj'
            (by simpa using (by omega : (k + 1) + j' < t.length))).1 m hm'
      · intro hn
        have hn' : parse (rest.get ⟨j', hj'⟩) = none := hn
        cases h : parse s with
        | none =>
          simp only [List.enumFrom, oracleLoop, h, hidx]
          exact (ih (k + 1) t j' hj' (by omega)).2 hn'
        | some mm =>
          have hne : k ≠ (k + 1) + j' := by omega
          simp only [List.enumFrom, oracleLoop, h, hidx]
          rw [(ih (k + 1) (t.set k (qedf mm)) j' hj'
            (by simpa using (by omega : (k + 1) + j' < t.length))).2 hn']
          exact List.getElem?_set_ne hne

/-- C9: `QED_oracle` returns a vector of the same length as the SMILES list;
the entry for each SMILES that parses is its QED value, and the entry for
each SMILES that fails to parse is the initial zero.  The embedding is a
total function, so no input raises. -/
theorem QED_oracle_spec (parse : String → Option Mol) (qedf : Mol → ℝ)
    (smiles : List String) :
    (QED_oracle parse qedf smiles).length = smiles.length ∧
    ∀ j (hj : j < smiles.length),
      (QED_oracle parse qedf smiles)[j]? =
        some (match parse (smiles.get ⟨j, hj⟩) with
              | some m => qedf m
              | none => 0) := by
  constructor
  · simpa [QED_oracle] using
      oracleLoop_length parse qedf smiles.enum (List.replicate smiles.length 0)
  · intro j hj
    have ht : 0 + j < (List.replicate smiles.length (0 : ℝ)).length := by
      simpa using hj
    have h := oracleLoop_getElem parse qedf smiles 0 (List.replicate smiles.length 0)
      j hj ht
    unfold QED_oracle
    cases hp : parse (smiles.get ⟨j, hj⟩) with
    | some m =>
      have h1 := h.1 m hp
      simp only [Nat.zero_add] at h1
      rw [show smiles.enum = List.enumFrom 0 smiles from rfl, h1]
    | none =>
      have h2 := h.2 hp
      simp only [Nat.zero_add] at h2
      rw [show smiles.enum = List.enumFrom 0 smiles from rfl, h2]
      simp [hp, hj]

/-- Witness for `QED_oracle_spec`: a two-element SMILES list whose first entry
fails to parse (entry stays 0) and whose second parses (entry is its QED). -/
theorem QED_oracle_spec_witness :
    (1 < 2) ∧
    (QED_oracle (fun s => if s = "C" then (some () : Option Unit) else none)
        (fun _ => (1 : ℝ)) ["bad", "C"])[1]? =
      some (match (if "C" = "C" then some () else none : Option Unit) with
            | some _ => (1 : ℝ)
            | none => 0) :=
  ⟨by decide,
    (QED_oracle_spec (fun s => if s = "C" then some () else none)
      (fun _ => (1 : ℝ)) ["bad", "C"]).2 1 (by decide)⟩

/-! ## Normalizer lemmas (claim C1) -/

theorem normalize_length (xs : List ℝ) : (normalize xs).length = xs.length := by
  simp [normalize]

theorem sum_map_sub_const (xs : List ℝ) (c : ℝ) :
    (xs.map (fun x => x - c)).sum = xs.sum - xs.length * c := by
  induction xs with
  | nil => simp
  | cons a l ih =>
    simp only [List.map_cons, List.sum_cons, ih, List.length_cons]
    push_cast
    ring

theorem variance_nonneg (xs : List ℝ) : 0 ≤ variance xs := by
  unfold variance
  apply div_nonneg
  · apply List.sum_nonneg
    intro x hx
    obtain ⟨y, _, rfl⟩ := List.mem_map.mp hx
    exact sq_nonneg _
  · exact Nat.cast_nonneg _

theorem length_ne_zero_of_variance_ne (xs : List ℝ) (h : variance xs ≠ 0) :
    (xs.length : ℝ) ≠ 0 := by
  intro h0
  apply h
  unfold variance
  rw [h0, div_zero]

theorem sum_eq_length_mul_mean (xs : List ℝ) (h : (xs.length : ℝ) ≠ 0) :
    xs.sum = xs.length * mean xs := by
  unfold mean
  field_simp

theorem sum_normalize (xs : List ℝ) (h : (xs.length : ℝ) ≠ 0) :
    (normalize xs).sum = 0 := by
  unfold normalize
  have hdiv : (xs.map (fun x => (x - mean xs) / std xs)).sum
      = (xs.map (fun x => (x - mean xs) * (std xs)⁻¹)).sum := by
    simp [div_eq_mul_inv]
  rw [hdiv, List.sum_map_mul_right, sum_map_sub_const,
    sum_eq_length_mul_mean xs h]
  simp

theorem mean_normalize (xs : List ℝ) (h : (xs.length : ℝ) ≠ 0) :
    mean (normalize xs) = 0 := by
  unfold mean
  rw [normalize_length, sum_normalize xs h, zero_div]

theorem variance_normalize (xs : List ℝ) (h : variance xs ≠ 0) :
    variance (normalize xs) = 1 := by
  have hn : (xs.length : ℝ) ≠ 0 := length_ne_zero_of_variance_ne xs h
  have hm := mean_normalize xs hn
  have hsq : std xs ^ 2 = variance xs := Real.sq_sqrt (variance_nonneg xs)
  unfold variance
  rw [normalize_length, hm]
  unfold normalize
  rw [List.map_map]
  have hfun : ((fun y => (y - 0) ^ 2) ∘ fun x => (x - mean xs) / std xs)
      = fun x => ((x - mean xs) ^ 2) * ((std xs ^ 2)⁻¹) := by
    funext x
    simp only [Function.comp, sub_zero, div_pow]
    rw [div_eq_mul_inv]
  rw [hfun, List.sum_map_mul_right, hsq]
  have hv : (xs.map fun x => (x - mean xs) ^ 2).sum = variance xs * xs.length := by
    unfold variance
    field_simp
  rw [hv]
  field_simp

/-- C1: the z-score normalization `(x - mean(x)) / std(x)` with population
statistics over the full batch yields, for any batch of non-zero variance, a
vector of mean exactly 0 and standard deviation exactly 1 (exact over the
idealised reals, "within floating-point tolerance" in IEEE arithmetic). -/
theorem normalize_mean_std (xs : List ℝ) (h : variance xs ≠ 0) :
    mean (normalize xs) = 0 ∧ std (normalize xs) = 1 := by
  have hn : (xs.length : ℝ) ≠ 0 := length_ne_zero_of_variance_ne xs h
  refine ⟨mean_normalize xs hn, ?_⟩
  unfold std
  rw [variance_normalize xs h, Real.sqrt_one]

/-- Witness for `normalize_mean_std` on the concrete batch `[0, 2]`, whose
variance is 1. -/
theorem normalize_mean_std_witness :
    variance [(0 : ℝ), 2] ≠ 0 ∧
    (mean (normalize [(0 : ℝ), 2]) = 0 ∧ std (normalize [(0 : ℝ), 2]) = 1) := by
  have hv : variance [(0 : ℝ), 2] = 1 := by
    norm_num [variance, mean]
  exact ⟨by rw [hv]; norm_num,
    normalize_mean_std [0, 2] (by rw [hv]; norm_num)⟩

/-! ## The scoring pipeline of `generate_init.py` -/

/-- The external per-molecule scoring functions consumed by the script:
`logP` and `qed` from `comp_metrics`, `calculateScore` (the SA heuristic,
lower = easier to synthesize) from `sascorer`, and `cycle_score` (the large-
ring penalty) from `comp_metrics`.  Molecules (`Mol`) are opaque. -/
structure Scorers (Mol : Type) where
  logP : Mol → ℝ
  qed : Mol → ℝ
  calculateScore : Mol → ℝ
  cycle_score : Mol → ℝ

variable {Mol : Type}

/-- `logP_values`: the loop `logP_values.append(logP(m))`. -/
def logP_values (S : Scorers Mol) (mols : List Mol) : List ℝ :=
  mols.map S.logP

/-- `qed_values`: the loop `qed_values.append(qed(m))`. -/
def qed_values (S : Scorers Mol) (mols : List Mol) : List ℝ :=
  mols.map S.qed

/-- `SA_scores`: the loop `SA_scores.append(-calculateScore(m))` — the raw SA
heuristic is negated before being stored. -/
def SA_scores (S : Scorers Mol) (mols : List Mol) : List ℝ :=
  mols.map (fun m => -S.calculateScore m)

/-- `cycle_scores`: the loop `cycle_scores.append(-cycle_score(m))` — the raw
cycle penalty is negated before being stored. -/
def cycle_scores (S : Scorers Mol) (mols : List Mol) : List ℝ :=
  mols.map (fun m => -S.cycle_score m)

/-- Modelled from the spec: `AllChem.GetMorganFingerprintAsBitVect` is RDKit
library code, not part of this repository.  Per the spec (§4.3) it is a
side-effect-free, deterministic function of the molecule, the radius and the
bit length, returning a binary vector of exactly `nBits` bits; the circular-
substructure hashing that decides each bit is abstracted as `hash`. -/
def GetMorganFingerprintAsBitVect (hash : Mol → Nat → Nat → Bool)
    (m : Mol) (radius : Nat) (nBits : Nat) : List Bool :=
  (List.range nBits).map (hash m radius)

/-- The fingerprint loop of the `qsar` branch:
`fps.append(np.array(AllChem.GetMorganFingerprintAsBitVect(m, 3, nBits=2048)))`. -/
def qsar_fps (hash : Mol → Nat → Nat → Bool) (mols : List Mol) :
    List (List Bool) :=
  mols.map (fun m => GetMorganFingerprintAsBitVect hash m 3 2048)

/-- The four objective modes of `args.obj`. -/
inductive Obj
  | logp
  | qed
  | qsar
  | docking

/-- `targets` of the `logp` branch:
`SA_scores_normalized + logP_values_normalized + cycle_scores_normalized`
(numpy element-wise addition, left associated). -/
noncomputable def targets_logp (S : Scorers Mol) (mols : List Mol) : List ℝ :=
  List.zipWith (· + ·)
    (List.zipWith (· + ·) (normalize (SA_scores S mols))
      (normalize (logP_values S mols)))
    (normalize (cycle_scores S mols))

/-- `targets` of the `qed` branch:
`SA_scores_normalized + qed_values_normalized + cycle_scores_normalized`. -/
noncomputable def targets_qed (S : Scorers Mol) (mols : List Mol) : List ℝ :=
  List.zipWith (· + ·)
    (List.zipWith (· + ·) (normalize (SA_scores S mols))
      (normalize (qed_values S mols)))
    (normalize (cycle_scores S mols))

/-- `targets` of the `qsar` branch: `clf.predict_proba(fps)[:,1]` (the row-wise
positive-class probability, abstracted as `predict_one`) followed by
`targets = (targets - np.mean(targets)) / np.std(targets)`. -/
noncomputable def targets_qsar (hash : Mol → Nat → Nat → Bool)
    (predict_one : List Bool → ℝ) (mols : List Mol) : List ℝ :=
  normalize ((qsar_fps hash mols).map predict_one)

/-- The composite objective vector each objective branch computes;
`docking` raises before computing one (`none`). -/
noncomputable def computeTargets (S : Scorers Mol)
    (hash : Mol → Nat → Nat → Bool) (predict_one : List Bool → ℝ)
    (obj : Obj) (mols : List Mol) : Option (List ℝ) :=
  match obj with
  | Obj.logp => some (targets_logp S mols)
  | Obj.qed => some (targets_qed S mols)
  | Obj.qsar => some (targets_qsar hash predict_one mols)
  | Obj.docking => none

/-- Contents of one output file of the script: either a matrix
(`latent_features.txt`) or a flat score vector. -/
inductive FileData
  | mat : List (List ℝ) → FileData
  | vec : List ℝ → FileData

/-- The whole scoring pipeline after model loading: embed the molecules and
save `latent_features.txt`, then branch on the objective.  Each `np.savetxt`
is recorded, in program order, as a named entry in the returned list; a
Python exception is an `Except.error`.  Note `latent_features.txt` is written
before the objective branch, and the `qsar` branch saves only its (already
normalized) targets. -/
noncomputable def runPipeline (S : Scorers Mol)
    (embed : List Mol → List (List ℝ)) (hash : Mol → Nat → Nat → Bool)
    (predict_one : List Bool → ℝ) (obj : Obj) (mols : List Mol) :
    List (String × FileData) × Except String Unit :=
  let z := embed mols
  let latent := ("latent_features.txt", FileData.mat z)
  match obj with
  | Obj.logp =>
      ([latent,
        ("targets_logp.txt", FileData.vec (targets_logp S mols)),
        ("logP_values.txt", FileData.vec (logP_values S mols)),
        ("SA_scores.txt", FileData.vec (SA_scores S mols)),
        ("cycle_scores.txt", FileData.vec (cycle_scores S mols))],
       Except.ok ())
  | Obj.qed =>
      ([latent,
        ("targets_qed.txt", FileData.vec (targets_qed S mols)),
        ("qed_values.txt", FileData.vec (qed_values S mols)),
        ("SA_scores.txt", FileData.vec (SA_scores S mols)),
        ("cycle_scores.txt", FileData.vec (cycle_scores S mols))],
       Except.ok ())
  | Obj.qsar =>
      ([latent,
        ("targets_qsar.txt", FileData.vec (targets_qsar hash predict_one mols))],
       Except.ok ())
  | Obj.docking =>
      ([latent], Except.error "NotImplementedError")

/-- Raw (pre-normalization) score components of each objective mode, as the
spec lists them; `docking` has none. -/
def rawComponents (S : Scorers Mol) (hash : Mol → Nat → Nat → Bool)
    (predict_one : List Bool → ℝ) (obj : Obj) (mols : List Mol) :
    Option (List (List ℝ)) :=
  match obj with
  | Obj.logp => some [SA_scores S mols, logP_values S mols, cycle_scores S mols]
  | Obj.qed => some [SA_scores S mols, qed_values S mols, cycle_scores S mols]
  | Obj.qsar => some [(qsar_fps hash mols).map predict_one]
  | Obj.docking => none

/-- The composite objective as the spec words it: the element-wise sum of the
normalized component score vectors (`composite = sum_i normalize(score_i)`). -/
noncomputable def compositeSpec (S : Scorers Mol)
    (hash : Mol → Nat → Nat → Bool) (predict_one : List Bool → ℝ)
    (obj : Obj) (mols : List Mol) : Option (List ℝ) :=
  (rawComponents S hash predict_one obj mols).map (fun comps =>
    (comps.map normalize).foldl (List.zipWith (· + ·))
      (List.replicate mols.length 0))

/-! ## Composite objective, negated components, fingerprints -/

theorem zipWith_add_replicate_zero (v : List ℝ) :
    List.zipWith (· + ·) (List.replicate v.length 0) v = v := by
  induction v with
  | nil => rfl
  | cons a l ih => simp [List.replicate_succ, ih]

theorem zipWith_add_replicate_zero_of_length (v : List ℝ) (n : Nat)
    (h : v.length = n) :
    List.zipWith (· + ·) (List.replicate n 0) v = v := by
  subst h
  exact zipWith_add_replicate_zero v

theorem targets_logp_length (S : Scorers Mol) (mols : List Mol) :
    (targets_logp S mols).length = mols.length := by
  simp [targets_logp, List.length_zipWith, normalize_length, SA_scores,
    logP_values, cycle_scores]

theorem targets_qed_length (S : Scorers Mol) (mols : List Mol) :
    (targets_qed S mols).length = mols.length := by
  simp [targets_qed, List.length_zipWith, normalize_length, SA_scores,
    qed_values, cycle_scores]

theorem targets_qsar_length (hash : Mol → Nat → Nat → Bool)
    (predict_one : List Bool → ℝ) (mols : List Mol) :
    (targets_qsar hash predict_one mols).length = mols.length := by
  simp [targets_qsar, normalize_length, qsar_fps]

/-- C2: for every objective mode, the composite objective the branch computes
is exactly the element-wise sum of the normalized component score vectors
(`compositeSpec`), and whenever a composite vector is produced its length is
the input batch size. -/
theorem computeTargets_composite (S : Scorers Mol)
    (hash : Mol → Nat → Nat → Bool) (predict_one : List Bool → ℝ)
    (obj : Obj) (mols : List Mol) :
    computeTargets S hash predict_one obj mols
      = compositeSpec S hash predict_one obj mols ∧
    ∀ t, computeTargets S hash predict_one obj mols = some t →
      t.length = mols.length := by
  cases obj with
  | logp =>
    constructor
    · simp only [computeTargets, compositeSpec, rawComponents,
        Option.map_some', List.map_cons, List.map_nil, List.foldl_cons,
        List.foldl_nil]
      rw [zipWith_add_replicate_zero_of_length _ _
        (by simp [normalize_length, SA_scores])]
      rfl
    · intro t ht
      obtain rfl : targets_logp S mols = t := Option.some.inj ht
      exact targets_logp_length S mols
  | qed =>
    constructor
    · simp only [computeTargets, compositeSpec, rawComponents,
        Option.map_some', List.map_cons, List.map_nil, List.foldl_cons,
        List.foldl_nil]
      rw [zipWith_add_replicate_zero_of_length _ _
        (by simp [normalize_length, SA_scores])]
      rfl
    · intro t ht
      obtain rfl : targets_qed S mols = t := Option.some.inj ht
      exact targets_qed_length S mols
  | qsar =>
    constructor
    · simp only [computeTargets, compositeSpec, rawComponents,
        Option.map_some', List.map_cons, List.map_nil, List.foldl_cons,
        List.foldl_nil]
      rw [zipWith_add_replicate_zero_of_length _ _
        (by simp [normalize_length, qsar_fps])]
      rfl
    · intro t ht
      obtain rfl : targets_qsar hash predict_one mols = t := Option.some.inj ht
      exact targets_qsar_length hash predict_one mols
  | docking =>
    exact ⟨rfl, fun t ht => by simp [computeTargets] at ht⟩

/-- C6: the stored SA score of every molecule is the negation of the raw SA
heuristic `calculateScore`, and the stored cycle score is the negation of the
raw cycle penalty `cycle_score` (both therefore oriented "larger is
better"). -/
theorem SA_cycle_negated (S : Scorers Mol) (mols : List Mol) (i : Nat)
    (h : i < mols.length) :
    (SA_scores S mols)[i]? = some (-S.calculateScore (mols.get ⟨i, h⟩)) ∧
    (cycle_scores S mols)[i]? = some (-S.cycle_score (mols.get ⟨i, h⟩)) := by
  constructor <;>
    simp [SA_scores, cycle_scores, List.getElem?_eq_getElem,
      List.get_eq_getElem, h]

/-- C8: the qsar branch extracts every fingerprint with radius 3 and bit
length 2048; every extracted fingerprint has exactly 2048 bits, and the
extraction is a pure function of the molecule (deterministic by
construction). -/
theorem qsar_fps_spec (hash : Mol → Nat → Nat → Bool) (mols : List Mol) :
    (qsar_fps hash mols).length = mols.length ∧
    (∀ i (h : i < mols.length),
      (qsar_fps hash mols)[i]? =
        some (GetMorganFingerprintAsBitVect hash (mols.get ⟨i, h⟩) 3 2048)) ∧
    ∀ fp ∈ qsar_fps hash mols, fp.length = 2048 := by
  refine ⟨by simp [qsar_fps], ?_, ?_⟩
  · intro i h
    simp [qsar_fps, List.getElem?_eq_getElem, List.get_eq_getElem, h]
  · intro fp hfp
    obtain ⟨m, _, rfl⟩ := List.mem_map.mp hfp
    simp [GetMorganFingerprintAsBitVect]

/-! ## Concrete instantiations for witnesses and counterexamples -/

/-- Concrete scorers on `Unit` molecules. -/
def S0 : Scorers Unit := ⟨fun _ => 1, fun _ => 1, fun _ => 3, fun _ => 2⟩

/-- Concrete embedding: every molecule maps to the latent vector `[0]`. -/
def embed0 : List Unit → List (List ℝ) := fun ms => ms.map (fun _ => [0])

/-- Concrete fingerprint hash: every bit is off. -/
def hash0 : Unit → Nat → Nat → Bool := fun _ _ _ => false

/-- Concrete QSAR row predictor. -/
def predict0 : List Bool → ℝ := fun _ => 0

/-- Scorers giving every molecule the identical score, so every score vector
has zero variance. -/
def Sconst : Scorers Unit := ⟨fun _ => 1, fun _ => 1, fun _ => 1, fun _ => 1⟩

/-- Witness for `computeTargets_composite` on the `logp` mode and the empty
batch. -/
theorem computeTargets_composite_witness :
    computeTargets S0 hash0 predict0 Obj.logp ([] : List Unit) = some [] ∧
    ([] : List ℝ).length = ([] : List Unit).length :=
  ⟨rfl, (computeTargets_composite S0 hash0 predict0 Obj.logp []).2 [] rfl⟩

/-- Witness for `SA_cycle_negated` on a concrete one-molecule batch. -/
theorem SA_cycle_negated_witness :
    0 < ([()] : List Unit).length ∧
    ((SA_scores S0 [()])[0]? =
        some (-S0.calculateScore (([()] : List Unit).get ⟨0, by decide⟩)) ∧
      (cycle_scores S0 [()])[0]? =
        some (-S0.cycle_score (([()] : List Unit).get ⟨0, by decide⟩))) :=
  ⟨by decide, SA_cycle_negated S0 [()] 0 (by decide)⟩

/-- Witness for `qsar_fps_spec` on a concrete one-molecule batch: the
extracted fingerprint is the radius-3, 2048-bit Morgan vector and has length
2048. -/
theorem qsar_fps_spec_witness :
    0 < ([()] : List Unit).length ∧
    GetMorganFingerprintAsBitVect hash0 () 3 2048 ∈ qsar_fps hash0 [()] ∧
    ((qsar_fps hash0 [()])[0]? =
      some (GetMorganFingerprintAsBitVect hash0
        (([()] : List Unit).get ⟨0, by decide⟩) 3 2048)) ∧
    (GetMorganFingerprintAsBitVect hash0 () 3 2048).length = 2048 :=
  ⟨by decide, List.mem_singleton.mpr rfl,
    (qsar_fps_spec hash0 [()]).2.1 0 (by decide),
    (qsar_fps_spec hash0 [()]).2.2 _ (List.mem_singleton.mpr rfl)⟩

/-! ## Docking mode (claim C3) and zero variance (claim C4), output files (C5) -/

/-- Counterexample to C3 as stated: on a concrete one-molecule batch the
`docking` run still produces an output file, because `latent_features.txt`
is saved before the objective branch raises `NotImplementedError`. -/
theorem docking_produces_latent_file :
    (runPipeline S0 embed0 hash0 predict0 Obj.docking [()]).1 ≠ [] ∧
    (runPipeline S0 embed0 hash0 predict0 Obj.docking [()]).1
      = [("latent_features.txt", FileData.mat [[0]])] := by
  constructor
  · intro hc
    rw [show (runPipeline S0 embed0 hash0 predict0 Obj.docking [()]).1
        = [("latent_features.txt", FileData.mat [[0]])] from rfl] at hc
    exact List.cons_ne_nil _ _ hc
  · rfl

/-- C3 (amended): the `docking` mode fails immediately inside its branch with
`NotImplementedError` and writes none of the target/score files — but the
latent-features file has already been saved before the objective branch, so
exactly that one output file is produced. -/
theorem docking_spec (S : Scorers Mol) (embed : List Mol → List (List ℝ))
    (hash : Mol → Nat → Nat → Bool) (predict_one : List Bool → ℝ)
    (mols : List Mol) :
    runPipeline S embed hash predict_one Obj.docking mols
      = ([("latent_features.txt", FileData.mat (embed mols))],
         Except.error "NotImplementedError") := rfl

/-- Counterexample to C4 as stated: a two-molecule batch in which every
molecule has the identical score (zero variance in the SA component) is not
detected or rejected — the `logp` run completes without error. -/
theorem zero_variance_not_rejected :
    variance (SA_scores Sconst [(), ()]) = 0 ∧
    (runPipeline Sconst embed0 hash0 predict0 Obj.logp [(), ()]).2
      = Except.ok () := by
  constructor
  · norm_num [variance, mean, SA_scores, Sconst]
  · rfl

/-- C4 (amended): the pipeline performs no zero-variance check — every `logp`
run completes without error regardless of the scores, and normalizing a
zero-variance vector silently produces the degenerate all-zero vector (the
total-division idealisation of numpy's `NaN`/`Inf` divide-by-zero output: the
entries carry no z-score information). -/
theorem zero_variance_silent :
    (∀ xs : List ℝ, variance xs = 0 →
      normalize xs = List.replicate xs.length 0) ∧
    (∀ (M : Type) (S : Scorers M) (embed : List M → List (List ℝ))
      (hash : M → Nat → Nat → Bool) (predict_one : List Bool → ℝ)
      (mols : List M),
      (runPipeline S embed hash predict_one Obj.logp mols).2
        = Except.ok ()) := by
  constructor
  · intro xs h
    have hs : std xs = 0 := by rw [std, h, Real.sqrt_zero]
    unfold normalize
    rw [hs]
    simp [div_zero]
  · intro M S embed hash predict_one mols
    rfl

/-- Witness for `zero_variance_silent` on the constant batch `[1, 1]`. -/
theorem zero_variance_silent_witness :
    variance [(1 : ℝ), 1] = 0 ∧
    normalize [(1 : ℝ), 1] = List.replicate ([(1 : ℝ), 1]).length 0 := by
  have hv : variance [(1 : ℝ), 1] = 0 := by norm_num [variance, mean]
  exact ⟨hv, zero_variance_silent.1 [1, 1] hv⟩

/-- Counterexample to C5 as stated: on a concrete batch the `qsar` run writes
only the latent-features file and the already-normalized targets file — the
raw (pre-normalization) QSAR probabilities are written to no file. -/
theorem qsar_no_raw_component_file :
    ((runPipeline S0 embed0 hash0 predict0 Obj.qsar [()]).1).map Prod.fst
      = ["latent_features.txt", "targets_qsar.txt"] := rfl

/-- C5 (amended): the `logp` and `qed` modes write the composite objective and
each raw score component to separate files; the `qsar` mode writes only the
composite (normalized) targets file, and no raw component file. -/
theorem output_files_per_mode (S : Scorers Mol)
    (embed : List Mol → List (List ℝ)) (hash : Mol → Nat → Nat → Bool)
    (predict_one : List Bool → ℝ) (mols : List Mol) :
    ((runPipeline S embed hash predict_one Obj.logp mols).1).map Prod.fst
      = ["latent_features.txt", "targets_logp.txt", "logP_values.txt",
         "SA_scores.txt", "cycle_scores.txt"] ∧
    ((runPipeline S embed hash predict_one Obj.qed mols).1).map Prod.fst
      = ["latent_features.txt", "targets_qed.txt", "qed_values.txt",
         "SA_scores.txt", "cycle_scores.txt"] ∧
    ((runPipeline S embed hash predict_one Obj.qsar mols).1).map Prod.fst
      = ["latent_features.txt", "targets_qsar.txt"] :=
  ⟨rfl, rfl, rfl⟩

end OptiMol
